import Mathlib

/- Shallow embedding of the TavernDashboard ledger layer: the JSON
   normalization, remote-fetch cache, player lookup and upload endpoint of
   src/server.js and of the variant files src/unnamed/part_000,
   src/unnamed/part_001 and src/unnamed/part_002.

   JSON.parse results are modelled by the inductive type Json below;
   JavaScript numbers that occur in parsed JSON documents are finite and are
   modelled by rationals.  A TypeError escaping a function (property access
   on null, calling .map on a non-array, calling .toLowerCase on a
   non-string) is modelled by Except.error (). -/

namespace Tavern

/-- Model of a JavaScript value produced by JSON.parse: null, booleans,
finite numbers, strings, arrays and plain objects. -/
inductive Json where
  | null : Json
  | bool (b : Bool) : Json
  | num (q : ℚ) : Json
  | str (s : String) : Json
  | arr (elems : List Json) : Json
  | obj (fields : List (String × Json)) : Json

/-- JavaScript truthiness of a parsed JSON value: null, false, 0 and the
empty string are falsy; every array and every object is truthy. -/
def truthy : Json → Bool
  | .null => false
  | .bool b => b
  | .num q => q != 0
  | .str s => s != ""
  | .arr _ => true
  | .obj _ => true

/-- Property access `v.k` on a non-null value: for an object, the value of
the key (JSON.parse keeps the last binding when a key is repeated), for any
other non-null value `undefined`, modelled as `none`.  Call sites guard the
null case, where JavaScript would instead throw. -/
def getFieldD : Json → String → Option Json
  | .obj fs, k => (fs.reverse.find? (fun kv => kv.1 == k)).map (fun kv => kv.2)
  | _, _ => none

/-- The JavaScript expression `a || b` where `a` may be `undefined` (`none`)
and `b` is a definite value: the first operand when truthy, else `b`. -/
def jsOrV (a : Option Json) (b : Json) : Json :=
  match a with
  | some v => if truthy v then v else b
  | none => b

/-- The JavaScript expression `a || b` where both operands may be
`undefined`: the first operand when truthy, else the second. -/
def jsOr (a b : Option Json) : Option Json :=
  match a with
  | some v => if truthy v then some v else b
  | none => b

mutual

/-- Model of JavaScript String(v) / v.toString() for parsed JSON values.
Arrays join their elements with commas (null elements become empty),
objects print as "[object Object]".  Number formatting is exact for
integers; non-integral rationals use the Lean rational printer, an
approximation of double formatting that no claim depends on. -/
def jsToString : Json → String
  | .null => "null"
  | .bool b => if b then "true" else "false"
  | .num q => if q.den = 1 then toString q.num else toString q
  | .str s => s
  | .arr xs => String.intercalate "," (jsArrStrings xs)
  | .obj _ => "[object Object]"

/-- Element strings of a JavaScript array join: null elements contribute
the empty string. -/
def jsArrStrings : List Json → List String
  | [] => []
  | .null :: rest => "" :: jsArrStrings rest
  | v :: rest => jsToString v :: jsArrStrings rest

end

/-- Model of JavaScript String.prototype.toLowerCase: the simple lowercase
mapping applied to every character (identical to it on ASCII, which is all
the repository data uses). -/
def jsToLower (s : String) : String := ⟨s.data.map Char.toLower⟩

/-- Canonical player record produced by normalizeData in src/server.js.
The numeric fields are always finite numbers there (guarded by
Number.isFinite), hence rationals; currentTitle, titles elements,
inventory elements and lastUpdated can be arbitrary JSON values and stay
Json. -/
structure Player where
  username : String
  usernameLower : String
  currentTitle : Json
  titles : List Json
  gold : ℚ
  health : ℚ
  drunkenness : ℚ
  honour : ℚ
  questsCompleted : ℚ
  inventory : List Json

/-- Canonical ledger of src/server.js: lastUpdated plus the player list. -/
structure Ledger where
  lastUpdated : Json
  players : List Player

/-- The expression `Number.isFinite(p.k) ? p.k : d` of src/server.js:
Number.isFinite does not coerce, so it holds exactly for number values
(all numbers in parsed JSON are finite). -/
def numOr (p : Json) (k : String) (d : ℚ) : ℚ :=
  match getFieldD p k with
  | some (.num q) => q
  | _ => d

/-- The username resolution `p.username || p.name || p.user || ""` shared
by all normalizeData variants. -/
def resolveUname (p : Json) : Json :=
  jsOrV (getFieldD p "username")
    (jsOrV (getFieldD p "name") (jsOrV (getFieldD p "user") (Json.str "")))

/-- Body of the map callback in normalizeData of src/server.js for a
non-null entry: each field resolved exactly as the object literal does
(titles guards with Array.isArray plus nonemptiness, numeric fields with
Number.isFinite, inventory with Array.isArray). -/
def normalizePlayerBody (p : Json) : Player :=
  let uname := jsToString (resolveUname p)
  let titlesF := getFieldD p "titles"
  { username := uname
    usernameLower := jsToLower uname
    currentTitle :=
      match titlesF with
      | some (.arr (t0 :: _)) =>
          jsOrV (getFieldD p "currentTitle") (jsOrV (some t0) (Json.str "Regular"))
      | _ => jsOrV (getFieldD p "currentTitle") (Json.str "Regular")
    titles := match titlesF with | some (.arr ts) => ts | _ => [Json.str "Regular"]
    gold := numOr p "gold" 0
    health := numOr p "health" 100
    drunkenness := numOr p "drunkenness" 0
    honour := numOr p "honour" 0
    questsCompleted := numOr p "questsCompleted" 0
    inventory := match getFieldD p "inventory" with | some (.arr xs) => xs | _ => [] }

/-- One player entry of the map callback in normalizeData of
src/server.js.  A null entry throws on the first property access. -/
def normalizePlayerSrc (p : Json) : Except Unit Player :=
  match p with
  | .null => .error ()
  | _ => .ok (normalizePlayerBody p)

/-- The players.map loop of src/server.js: element order preserved, the
first throwing element aborts the whole call. -/
def normalizePlayersSrc : List Json → Except Unit (List Player)
  | [] => .ok []
  | q :: qs =>
    match normalizePlayerSrc q with
    | .error e => .error e
    | .ok p =>
      match normalizePlayersSrc qs with
      | .error e => .error e
      | .ok ps => .ok (p :: ps)

/-- The third candidate `parsed.data && (parsed.data.playerList ||
parsed.data.players)` of the player-list chain in src/server.js: a falsy
data field short-circuits (so a null data field never throws). -/
def dataCandidate (parsed : Json) : Option Json :=
  match getFieldD parsed "data" with
  | none => none
  | some d =>
    if truthy d then jsOr (getFieldD d "playerList") (getFieldD d "players")
    else some d

/-- The player-list resolution of src/server.js:
`parsed.playerList || parsed.players || (parsed.data && (...)) ||
(Array.isArray(parsed) ? parsed : [])`.  Note playerList is tried first. -/
def resolvePlayersSrc (parsed : Json) : Json :=
  let dflt := match parsed with | .arr xs => Json.arr xs | _ => Json.arr []
  match jsOr (getFieldD parsed "playerList")
      (jsOr (getFieldD parsed "players") (dataCandidate parsed)) with
  | some v => if truthy v then v else dflt
  | none => dflt

/-- Tail of normalizeData in src/server.js after the parse step, applied to
a non-null parsed value: resolve the player list, map the entries, attach
lastUpdated.  An error is a TypeError escaping the body: the resolved
player-list candidate is truthy but not an array (players.map is not a
function), or some player entry is null. -/
def normalizeParsed (parsed : Json) (now : String) : Except Unit Ledger :=
  match resolvePlayersSrc parsed with
  | .arr rawPlayers =>
    match normalizePlayersSrc rawPlayers with
    | .ok ps =>
      .ok { lastUpdated := jsOrV (getFieldD parsed "lastUpdated") (Json.str now)
            players := ps }
    | .error e => .error e
  | _ => .error ()

/-- normalizeData of src/server.js: the input is the JSON.parse result of
the raw text (`none` when parsing threw, replaced by `{}` in the catch).
`now` is the string new Date().toISOString() would give.  A null parsed
value makes the very first property access (parsed.playerList) throw. -/
def normalizeData (o : Option Json) (now : String) : Except Unit Ledger :=
  match o.getD (Json.obj []) with
  | .null => .error ()
  | parsed => normalizeParsed parsed now

/-- Serialization of a canonical player record, as JSON.stringify writes it
in src/server.js (field order of the object literal). -/
def playerToJson (p : Player) : Json :=
  .obj [("username", .str p.username), ("usernameLower", .str p.usernameLower),
        ("currentTitle", p.currentTitle), ("titles", .arr p.titles),
        ("gold", .num p.gold), ("health", .num p.health),
        ("drunkenness", .num p.drunkenness), ("honour", .num p.honour),
        ("questsCompleted", .num p.questsCompleted), ("inventory", .arr p.inventory)]

/-- Serialization of a canonical ledger (JSON.stringify then JSON.parse is
the identity on values without undefined, so serialization is modelled
directly at the Json level). -/
def ledgerToJson (L : Ledger) : Json :=
  .obj [("lastUpdated", L.lastUpdated), ("players", .arr (L.players.map playerToJson))]

/-- Player record of the normalizeData variant in src/unnamed/part_000.
That variant uses nullish coalescing (`??`) for the numeric fields and does
not string-coerce the username, so username and the numeric fields can hold
arbitrary non-null JSON values. -/
structure PlayerV0 where
  username : Json
  usernameLower : String
  currentTitle : Json
  titles : List Json
  gold : Json
  health : Json
  drunkenness : Json
  honour : Json
  questsCompleted : Json
  inventory : List Json

/-- Ledger of the part_000 variant. -/
structure LedgerV0 where
  lastUpdated : Json
  players : List PlayerV0

/-- The JavaScript expression `a ?? d`: `d` exactly when `a` is null or
undefined, else `a` unchanged (strings and other non-null values pass
through). -/
def nullishOr (a : Option Json) (d : Json) : Json :=
  match a with
  | some .null => d
  | some v => v
  | none => d

/-- Body of the part_000 map callback once the resolved username turned
out to be the string s (the only case where uname.toLowerCase() does not
throw). -/
def normalizePlayerV0Body (p : Json) (s : String) : PlayerV0 :=
  { username := .str s
    usernameLower := jsToLower s
    currentTitle := jsOrV (getFieldD p "currentTitle") (Json.str "Regular")
    titles := match getFieldD p "titles" with | some (.arr ts) => ts | _ => [Json.str "Regular"]
    gold := nullishOr (getFieldD p "gold") (.num 0)
    health := nullishOr (getFieldD p "health") (.num 100)
    drunkenness := nullishOr (getFieldD p "drunkenness") (.num 0)
    honour := nullishOr (getFieldD p "honour") (.num 0)
    questsCompleted := nullishOr (getFieldD p "questsCompleted") (.num 0)
    inventory := match getFieldD p "inventory" with | some (.arr xs) => xs | _ => [] }

/-- One player entry of the map callback in normalizeData of
src/unnamed/part_000.  A null entry throws on the first property access;
a truthy non-string resolved username throws at uname.toLowerCase(). -/
def normalizePlayerV0 (p : Json) : Except Unit PlayerV0 :=
  match p with
  | .null => .error ()
  | _ =>
    match resolveUname p with
    | .str s => .ok (normalizePlayerV0Body p s)
    | _ => .error ()

/-- The players.map loop of the part_000 variant. -/
def normalizePlayersV0 : List Json → Except Unit (List PlayerV0)
  | [] => .ok []
  | q :: qs =>
    match normalizePlayerV0 q with
    | .error e => .error e
    | .ok p =>
      match normalizePlayersV0 qs with
      | .error e => .error e
      | .ok ps => .ok (p :: ps)

/-- The working-object resolution `parsed.data || parsed` of part_000: the
nested data field when truthy, else the parsed value itself. -/
def workingV0 (parsed : Json) : Json :=
  jsOrV (getFieldD parsed "data") parsed

/-- The player-list resolution of part_000 applied to the working object:
`data.players || data.playerList || (Array.isArray(data) ? data : [])`.
Note players is tried before playerList here, unlike src/server.js. -/
def resolvePlayersV0 (w : Json) : Json :=
  let dflt := match w with | .arr xs => Json.arr xs | _ => Json.arr []
  match jsOr (getFieldD w "players") (getFieldD w "playerList") with
  | some v => if truthy v then v else dflt
  | none => dflt

/-- normalizeData of src/unnamed/part_000.  The catch branch of JSON.parse
yields the blank ledger object there (not `{}`); the working object prefers
a nested data field; numeric fields use nullish coalescing. -/
def normalizeDataV0 (o : Option Json) (now : String) : Except Unit LedgerV0 :=
  match o.getD (Json.obj [("lastUpdated", Json.str "Never"), ("players", Json.arr [])]) with
  | .null => .error ()
  | parsed =>
    match resolvePlayersV0 (workingV0 parsed) with
    | .arr rawPlayers =>
      match normalizePlayersV0 rawPlayers with
      | .ok ps =>
        .ok { lastUpdated := jsOrV (getFieldD parsed "lastUpdated") (Json.str now)
              players := ps }
      | .error e => .error e
    | _ => .error ()

/-- Serialization of a part_000 player record (object literal field order
of that file), used by its upload endpoint before writing the file. -/
def playerV0ToJson (p : PlayerV0) : Json :=
  .obj [("username", p.username), ("usernameLower", .str p.usernameLower),
        ("currentTitle", p.currentTitle), ("titles", .arr p.titles),
        ("gold", p.gold), ("health", p.health),
        ("drunkenness", p.drunkenness), ("honour", p.honour),
        ("questsCompleted", p.questsCompleted), ("inventory", .arr p.inventory)]

/-- Serialization of a part_000 ledger. -/
def ledgerV0ToJson (L : LedgerV0) : Json :=
  .obj [("lastUpdated", L.lastUpdated), ("players", .arr (L.players.map playerV0ToJson))]

/-- The player lookup of the /status route in src/server.js:
`ledger.players.find((p) => p.usernameLower === user)` where `user` is the
lowercased raw username.  An empty result is returned as a value (find
yields undefined), never thrown. -/
def findPlayer (ledger : Ledger) (rawUsername : String) : Option Player :=
  ledger.players.find? (fun p => p.usernameLower == jsToLower rawUsername)

/-- The lookup core of getPlayerByLogin in src/unnamed/part_000:
`(login || "").toLowerCase()` then first match on usernameLower.  For a
string login the `|| ""` is the identity, so it is elided. -/
def getPlayerByLogin (ledger : LedgerV0) (login : String) : Option PlayerV0 :=
  ledger.players.find? (fun p => p.usernameLower == jsToLower login)

/-- Module-level cache of src/server.js: cachedLedger starts null,
lastFetchTime starts 0.  Times are Date.now() millisecond counts. -/
structure CacheState where
  cachedLedger : Option Ledger
  lastFetchTime : Int

/-- Outcome of the network fetch attempt: rejection, a response with
res.ok false, or a successful response whose text parses to the given
JSON.parse result (`none` when the text is not valid JSON). -/
inductive FetchOutcome where
  | netError : FetchOutcome
  | httpError (status : Nat) : FetchOutcome
  | success (body : Option Json) : FetchOutcome

/-- Whether the fetch failed or returned a non-success status (both throw
into the catch branch of loadLedger before normalization runs). -/
def fetchFails : FetchOutcome → Bool
  | .netError => true
  | .httpError _ => true
  | .success _ => false

/-- What one loadLedger call produces: the returned ledger, the cache state
afterwards, and whether a network fetch was performed. -/
structure LoadResult where
  ledger : Ledger
  state : CacheState
  didFetch : Bool

/-- The freshness window of src/server.js:
`const cacheDuration = 15 * 1000`. -/
def cacheDuration : Int := 15 * 1000

/-- The empty-ledger fallback of the catch branch:
`{ lastUpdated: "Never", players: [] }`. -/
def emptyLedger : Ledger := { lastUpdated := .str "Never", players := [] }

/-- The fetch-and-cache path of loadLedger (src/server.js): on a successful
response the body is normalized and replaces the cache wholesale; any throw
(network failure, non-ok status, or a TypeError out of normalizeData) lands
in the catch branch, which returns the stale cache when present and the
empty ledger otherwise, leaving the cache state untouched. -/
def fetchAndCache (s : CacheState) (now : Int) (outcome : FetchOutcome)
    (nowIso : String) : LoadResult :=
  match outcome with
  | .success body =>
    match normalizeData body nowIso with
    | .ok data => ⟨data, { cachedLedger := some data, lastFetchTime := now }, true⟩
    | .error _ => ⟨s.cachedLedger.getD emptyLedger, s, true⟩
  | _ => ⟨s.cachedLedger.getD emptyLedger, s, true⟩

/-- loadLedger of src/server.js: serve the cache without any network
access while it is populated and now - lastFetchTime is inside the
freshness window, else fetch.  Total by construction: no failure reaches
the caller. -/
def loadLedger (s : CacheState) (now : Int) (outcome : FetchOutcome)
    (nowIso : String) : LoadResult :=
  match s.cachedLedger with
  | some L =>
    if now - s.lastFetchTime < cacheDuration then ⟨L, s, false⟩
    else fetchAndCache s now outcome nowIso
  | none => fetchAndCache s now outcome nowIso

/-- The object-spread merge `{ ...base, ...d }` used by the part_000 upload
endpoint when wrapping the body: object fields append (later keys win under
getFieldD), array and string spreads contribute index keys, other
primitives contribute nothing. -/
def spreadMerge (base : List (String × Json)) (d : Json) : List (String × Json) :=
  match d with
  | .obj fs => base ++ fs
  | .arr xs => base ++ (xs.enum.map (fun iv => (toString iv.1, iv.2)))
  | .str s => base ++ (s.data.enum.map (fun ic => (toString ic.1, Json.str (String.mk [ic.2]))))
  | _ => base

/-- POST /api/upload of src/unnamed/part_000: the Authorization header must
equal the exact string `Bearer <UPLOAD_KEY>` or the handler answers 401
before touching the file; otherwise the body (unwrapped from an optional
data envelope, lastUpdated attached) is renormalized and written.  The
result is the HTTP status plus the file contents afterwards. -/
def handleUploadV0 (uploadKey : String) (auth : Option String) (body : Json)
    (file : Json) (now : String) : Nat × Json :=
  if auth = some ("Bearer " ++ uploadKey) then
    let b := if truthy body then body else Json.obj []
    let toNorm :=
      match getFieldD b "data" with
      | some d =>
        if truthy d then
          Json.obj (spreadMerge
            [("lastUpdated", jsOrV (getFieldD b "lastUpdated") (Json.str now))] d)
        else body
      | none => body
    match normalizeDataV0 (some toNorm) now with
    | .ok w => (200, ledgerV0ToJson w)
    | .error _ => (500, file)
  else (401, file)

/-- POST /api/upload of src/unnamed/part_001: same exact-match bearer
check answering 401 before any write; the success path wraps
`data.playerList || data.players || []` without normalizing.  Destructuring
a null body or accessing .playerList on a missing data field throws into
the catch, which answers 500 without writing. -/
def handleUploadV1 (uploadKey : String) (auth : Option String) (body : Json)
    (file : Json) (now : String) : Nat × Json :=
  if auth = some ("Bearer " ++ uploadKey) then
    match body with
    | .null => (500, file)
    | _ =>
      match getFieldD body "data" with
      | none => (500, file)
      | some .null => (500, file)
      | some d =>
        (200, Json.obj
          [("lastUpdated", jsOrV (getFieldD body "lastUpdated") (Json.str now)),
           ("players", jsOrV (getFieldD d "playerList")
              (jsOrV (getFieldD d "players") (Json.arr [])))])
  else (401, file)

/-- A numeric field is kept exactly when the raw value is a finite number
and replaced by the default in every other case (missing, null, string,
boolean, array, object). -/
def keepsFinite (raw : Option Json) (dflt : ℚ) (out : ℚ) : Prop :=
  (∀ q : ℚ, raw = some (.num q) → out = q) ∧
  ((∀ q : ℚ, raw ≠ some (.num q)) → out = dflt)

/-- The key is absent from the object or bound to the empty string. -/
def absentOrEmpty (fs : List (String × Json)) (k : String) : Prop :=
  getFieldD (.obj fs) k = none ∨ getFieldD (.obj fs) k = some (.str "")

/-- Invariant of every player record produced by normalizeData of
src/server.js: usernameLower is the lowercase of username, and
currentTitle is truthy. -/
def PlayerInv (p : Player) : Prop :=
  p.usernameLower = jsToLower p.username ∧ truthy p.currentTitle = true

/-- Invariant of every ledger produced by normalizeData of src/server.js
when the timestamp string is nonempty: lastUpdated is truthy and every
player satisfies PlayerInv. -/
def LedgerInv (L : Ledger) : Prop :=
  truthy L.lastUpdated = true ∧ ∀ p ∈ L.players, PlayerInv p

/-- Concrete input with both a players and a playerList field, used to
exhibit which of the two src/server.js resolves. -/
def bothFieldsObj : Json :=
  .obj [("players", .arr [.obj [("username", .str "a")]]),
        ("playerList", .arr [.obj [("username", .str "b")]])]

/-- Concrete canonical player for the lookup example. -/
def rexPlayer : Player :=
  { username := "Rex", usernameLower := "rex", currentTitle := .str "Regular",
    titles := [.str "Regular"], gold := 150, health := 100, drunkenness := 0,
    honour := 0, questsCompleted := 0, inventory := [] }

/-- Concrete canonical ledger containing only rexPlayer. -/
def rexLedger : Ledger := { lastUpdated := .str "T", players := [rexPlayer] }

/-- A possibly-undefined value is falsy in JavaScript: it is undefined, or
a defined falsy value.  Used to state the fall-through steps of the
player-list chains, where a falsy candidate (not merely an absent one)
also falls through. -/
def falsyOpt (a : Option Json) : Bool :=
  match a with
  | none => true
  | some w => !truthy w

/-- Player record of the normalizeData variant in src/unnamed/part_002
(lines 62-72).  Every field except usernameLower is resolved with logical
or, so any truthy raw value propagates verbatim, whatever its type, and
there is no titles field at all. -/
structure PlayerV2 where
  username : Json
  usernameLower : String
  currentTitle : Json
  gold : Json
  health : Json
  drunkenness : Json
  honour : Json
  questsCompleted : Json
  inventory : Json

/-- Body of the part_002 map callback once `p.username || ""` turned out
to be the string s (the only case where .toLowerCase() does not throw).
Each field is `p.k || default`: falsy raw values (0, "", false, null,
absent) are replaced, truthy ones kept verbatim. -/
def normalizePlayerV2Body (p : Json) (s : String) : PlayerV2 :=
  { username := .str s
    usernameLower := jsToLower s
    currentTitle := jsOrV (getFieldD p "currentTitle") (Json.str "Regular")
    gold := jsOrV (getFieldD p "gold") (.num 0)
    health := jsOrV (getFieldD p "health") (.num 100)
    drunkenness := jsOrV (getFieldD p "drunkenness") (.num 0)
    honour := jsOrV (getFieldD p "honour") (.num 0)
    questsCompleted := jsOrV (getFieldD p "questsCompleted") (.num 0)
    inventory := jsOrV (getFieldD p "inventory") (.arr []) }

/-- One player entry of the part_002 map callback.  A null entry throws on
the first property access; a truthy non-string username throws at
.toLowerCase().  There is no name or user fallback and no toString. -/
def normalizePlayerV2 (p : Json) : Except Unit PlayerV2 :=
  match p with
  | .null => .error ()
  | _ =>
    match jsOrV (getFieldD p "username") (Json.str "") with
    | .str s => .ok (normalizePlayerV2Body p s)
    | _ => .error ()

/-- The players.map loop of the part_002 variant. -/
def normalizePlayersV2 : List Json → Except Unit (List PlayerV2)
  | [] => .ok []
  | q :: qs =>
    match normalizePlayerV2 q with
    | .error e => .error e
    | .ok p =>
      match normalizePlayersV2 qs with
      | .error e => .error e
      | .ok ps => .ok (p :: ps)

/-- The player-list resolution of part_002 (lines 58-61):
`parsed.playerList || parsed.players || (Array.isArray(parsed) ? parsed :
[])`.  playerList first, no data candidate. -/
def resolvePlayersV2 (parsed : Json) : Json :=
  let dflt := match parsed with | .arr xs => Json.arr xs | _ => Json.arr []
  match jsOr (getFieldD parsed "playerList") (getFieldD parsed "players") with
  | some v => if truthy v then v else dflt
  | none => dflt

/-- normalizeData of src/unnamed/part_002: parse (catch yields `{}`),
resolve the player list without any data step, map the entries, and
return the bare normalized player array.  No ledger object and no
lastUpdated are produced. -/
def normalizeDataV2 (o : Option Json) : Except Unit (List PlayerV2) :=
  match o.getD (Json.obj []) with
  | .null => .error ()
  | parsed =>
    match resolvePlayersV2 parsed with
    | .arr rawPlayers => normalizePlayersV2 rawPlayers
    | _ => .error ()

/-- Outcome of the part_002 fetch attempt: a rejection, or a resolved
response carrying its status and the JSON.parse result of its text
(`none` when the text is not valid JSON).  part_002 never reads the
status. -/
inductive FetchOutcomeV2 where
  | reject : FetchOutcomeV2
  | resolved (status : Nat) (body : Option Json) : FetchOutcomeV2

/-- loadLedger of src/unnamed/part_002 (lines 79-90): no cache, no res.ok
check — the body of any resolved response is normalized as data, whatever
its status; a rejection (or a TypeError thrown out of normalizeData) lands
in the catch, which returns a bare empty array. -/
def loadLedgerV2 : FetchOutcomeV2 → List PlayerV2
  | .reject => []
  | .resolved _ body =>
    match normalizeDataV2 body with
    | .ok ps => ps
    | .error _ => []

/-- The find callback of the /status route in src/unnamed/part_001 (line
83): `p.username === user`.  True exactly when the raw username field is
the string user — a case-sensitive comparison of the raw field, not of
usernameLower. -/
def usernameMatches (p : Json) (user : String) : Bool :=
  match getFieldD p "username" with
  | some (.str s) => s == user
  | _ => false

/-- One find step on an entry: a null entry throws at the property access,
every other entry answers the boolean of the comparison. -/
def checkEntry (p : Json) (user : String) : Except Unit Bool :=
  match p with
  | .null => .error ()
  | _ => .ok (usernameMatches p user)

/-- The find scan of the part_001 lookup: first entry whose raw username
field equals user exactly, none when the scan completes without a match,
an error when a null entry is reached first. -/
def findV1 : List Json → String → Except Unit (Option Json)
  | [], _ => .ok none
  | p :: rest, user =>
    match checkEntry p user with
    | .error e => .error e
    | .ok true => .ok (some p)
    | .ok false => findV1 rest user

/-- The /status lookup of src/unnamed/part_001 (lines 70-85):
`parsed.players?.find((p) => p.username === user)` where user is the
lowercased query.  Optional chaining short-circuits a missing or null
players field to undefined (NotFound); calling find on a truthy non-array
players value, or touching a null entry, throws into the route catch. -/
def statusLookupV1 (parsed : Json) (rawUser : String) : Except Unit (Option Json) :=
  match parsed with
  | .null => .error ()
  | _ =>
    match getFieldD parsed "players" with
    | some (.arr xs) => findV1 xs (jsToLower rawUser)
    | some .null => .ok none
    | some _ => .error ()
    | none => .ok none

/-- Helper: a jsOrV with a truthy default is truthy. -/
theorem jsOrV_truthy (a : Option Json) (b : Json) (hb : truthy b = true) :
    truthy (jsOrV a b) = true := by
  cases a with
  | none => exact hb
  | some v =>
    by_cases hv : truthy v = true
    · simp [jsOrV, hv]
    · simp [jsOrV, hv, hb]

/-- Helper: a jsOrV whose first operand is truthy returns it. -/
theorem jsOrV_of_truthy (v b : Json) (hv : truthy v = true) : jsOrV (some v) b = v := by
  simp [jsOrV, hv]

/-- Helper: the username chain collapses on serialized records, where the
name and user keys are absent. -/
theorem jsToString_jsOrV_str (u : String) :
    jsToString (jsOrV (some (.str u)) (.str "")) = u := by
  by_cases hu : u = "" <;> simp [jsOrV, truthy, jsToString, hu]

/-- Helper: specification of List.find? as first match. -/
theorem find?_first_spec {α : Type} (q : α → Bool) (l : List α) :
    (∀ a, l.find? q = some a → q a = true ∧
       ∃ pre post, l = pre ++ a :: post ∧ ∀ b ∈ pre, q b = false) ∧
    (l.find? q = none ↔ ∀ b ∈ l, q b = false) := by
  induction l with
  | nil => simp
  | cons x xs ih =>
    by_cases hx : q x = true
    · refine ⟨?_, ?_⟩
      · intro a ha
        rw [List.find?_cons_of_pos _ hx] at ha
        cases ha
        exact ⟨hx, [], xs, rfl, by simp⟩
      · rw [List.find?_cons_of_pos _ hx]
        constructor
        · intro h; exact absurd h (by simp)
        · intro h; exact absurd (h x (List.mem_cons_self x xs)) (by simp [hx])
    · have hx' : q x = false := by simpa using hx
      refine ⟨?_, ?_⟩
      · intro a ha
        rw [List.find?_cons_of_neg _ hx] at ha
        obtain ⟨hqa, pre, post, heq, hpre⟩ := ih.1 a ha
        refine ⟨hqa, x :: pre, post, by rw [heq]; rfl, ?_⟩
        intro b hb
        rcases List.mem_cons.mp hb with rfl | hb2
        · exact hx'
        · exact hpre b hb2
      · rw [List.find?_cons_of_neg _ hx, ih.2]
        constructor
        · intro h b hb
          rcases List.mem_cons.mp hb with rfl | hb2
          · exact hx'
          · exact h b hb2
        · intro h b hb; exact h b (List.mem_cons_of_mem x hb)

/-- Helper: each numeric field of src/server.js keeps finite numbers and
defaults everything else. -/
theorem numOr_spec (p : Json) (k : String) (d : ℚ) :
    keepsFinite (getFieldD p k) d (numOr p k d) := by
  constructor
  · intro q h; simp [numOr, h]
  · intro hne
    unfold numOr
    cases h : getFieldD p k with
    | none => rfl
    | some v =>
      cases v with
      | num q => exact absurd h (hne q)
      | null => rfl
      | bool b => rfl
      | str s => rfl
      | arr xs => rfl
      | obj fs2 => rfl

/-- Helper: every record built by the src/server.js map callback satisfies
the player invariant. -/
theorem playerBody_inv (j : Json) : PlayerInv (normalizePlayerBody j) := by
  refine ⟨rfl, ?_⟩
  show truthy (normalizePlayerBody j).currentTitle = true
  unfold normalizePlayerBody
  dsimp only
  split
  · exact jsOrV_truthy _ _ (jsOrV_truthy _ _ rfl)
  · exact jsOrV_truthy _ _ rfl

/-- Helper: player invariant out of any successful normalizePlayerSrc. -/
theorem normalizePlayerSrc_inv {q : Json} {p : Player}
    (h : normalizePlayerSrc q = .ok p) : PlayerInv p := by
  cases q with
  | null => exact Except.noConfusion h
  | bool b => exact Except.ok.inj h ▸ playerBody_inv _
  | num n => exact Except.ok.inj h ▸ playerBody_inv _
  | str s => exact Except.ok.inj h ▸ playerBody_inv _
  | arr xs => exact Except.ok.inj h ▸ playerBody_inv _
  | obj fs => exact Except.ok.inj h ▸ playerBody_inv _

/-- Helper: player invariant for every member of a successful map. -/
theorem normalizePlayersSrc_inv : ∀ {xs : List Json} {ps : List Player},
    normalizePlayersSrc xs = .ok ps → ∀ p ∈ ps, PlayerInv p := by
  intro xs
  induction xs with
  | nil =>
    intro ps h p hp
    obtain rfl := Except.ok.inj h
    simp at hp
  | cons q qs ih =>
    intro ps h p hp
    have hstep : normalizePlayersSrc (q :: qs) =
        match normalizePlayerSrc q with
        | .error e => .error e
        | .ok p0 =>
          match normalizePlayersSrc qs with
          | .error e => .error e
          | .ok ps0 => .ok (p0 :: ps0) := rfl
    rw [hstep] at h
    cases hq : normalizePlayerSrc q with
    | error e => rw [hq] at h; exact Except.noConfusion h
    | ok p0 =>
      rw [hq] at h
      cases hqs : normalizePlayersSrc qs with
      | error e => rw [hqs] at h; exact Except.noConfusion h
      | ok ps0 =>
        rw [hqs] at h
        obtain rfl := Except.ok.inj h
        rcases List.mem_cons.mp hp with rfl | hp2
        · exact normalizePlayerSrc_inv hq
        · exact ih hqs p hp2

/-- Helper: ledger invariant out of any successful normalizeParsed with a
nonempty timestamp string. -/
theorem normalizeParsed_inv {j : Json} {now : String} {L : Ledger}
    (hnow : now ≠ "") (h : normalizeParsed j now = .ok L) : LedgerInv L := by
  unfold normalizeParsed at h
  split at h
  · split at h
    · next ps hps =>
      obtain rfl := Except.ok.inj h
      refine ⟨jsOrV_truthy _ _ (by simp [truthy, hnow]), ?_⟩
      intro p hp
      exact normalizePlayersSrc_inv hps p hp
    · exact Except.noConfusion h
  · exact Except.noConfusion h

/-- Helper: ledger invariant out of any successful normalizeData with a
nonempty timestamp string. -/
theorem normalizeData_inv {o : Option Json} {now : String} {L : Ledger}
    (hnow : now ≠ "") (h : normalizeData o now = .ok L) : LedgerInv L := by
  unfold normalizeData at h
  cases hj : o.getD (Json.obj []) with
  | null => rw [hj] at h; exact Except.noConfusion h
  | bool b => rw [hj] at h; exact normalizeParsed_inv hnow h
  | num q => rw [hj] at h; exact normalizeParsed_inv hnow h
  | str s => rw [hj] at h; exact normalizeParsed_inv hnow h
  | arr xs => rw [hj] at h; exact normalizeParsed_inv hnow h
  | obj fs => rw [hj] at h; exact normalizeParsed_inv hnow h

/-- Helper: re-normalizing a serialized invariant record reproduces it. -/
theorem playerBody_roundtrip (p : Player) (hp : PlayerInv p) :
    normalizePlayerBody (playerToJson p) = p := by
  obtain ⟨u, ul, ct, ts, g, hh, dd, hon, qc, iv⟩ := p
  have hl : ul = jsToLower u := hp.1
  have hc : truthy ct = true := hp.2
  subst hl
  have hu : jsToString (resolveUname (playerToJson ⟨u, jsToLower u, ct, ts, g, hh, dd, hon, qc, iv⟩)) = u :=
    jsToString_jsOrV_str u
  unfold normalizePlayerBody
  simp only [Player.mk.injEq]
  refine ⟨hu, by rw [hu], ?_, rfl, rfl, rfl, rfl, rfl, rfl, rfl⟩
  cases ts with
  | nil => exact jsOrV_of_truthy _ _ hc
  | cons t0 ts2 => exact jsOrV_of_truthy _ _ hc

/-- Helper: re-normalizing a serialized invariant player list reproduces
it. -/
theorem normalizePlayersSrc_roundtrip (ps : List Player)
    (h : ∀ p ∈ ps, PlayerInv p) :
    normalizePlayersSrc (ps.map playerToJson) = .ok ps := by
  induction ps with
  | nil => rfl
  | cons p rest ih =>
    have hp : normalizePlayerSrc (playerToJson p) = .ok p := by
      rw [show normalizePlayerSrc (playerToJson p)
            = .ok (normalizePlayerBody (playerToJson p)) from rfl,
          playerBody_roundtrip p (h p (List.mem_cons_self p rest))]
    have hstep : normalizePlayersSrc (playerToJson p :: rest.map playerToJson) =
        match normalizePlayerSrc (playerToJson p) with
        | .error e => .error e
        | .ok p0 =>
          match normalizePlayersSrc (rest.map playerToJson) with
          | .error e => .error e
          | .ok ps0 => .ok (p0 :: ps0) := rfl
    show normalizePlayersSrc (playerToJson p :: rest.map playerToJson) = .ok (p :: rest)
    rw [hstep, hp, ih (fun q hq => h q (List.mem_cons_of_mem p hq))]

/-- Helper: re-normalizing a serialized invariant ledger reproduces it. -/
theorem normalizeParsed_roundtrip (L : Ledger) (hInv : LedgerInv L) (now2 : String) :
    normalizeParsed (ledgerToJson L) now2 = .ok L := by
  have hstep : normalizeParsed (ledgerToJson L) now2 =
      match normalizePlayersSrc (L.players.map playerToJson) with
      | .ok ps => .ok { lastUpdated := jsOrV (some L.lastUpdated) (Json.str now2)
                        players := ps }
      | .error e => .error e := rfl
  rw [hstep, normalizePlayersSrc_roundtrip L.players hInv.2,
      jsOrV_of_truthy _ _ hInv.1]

/-- C1: the spec claims normalizeData is total on every input and never
raises; the code instead lets a TypeError escape when the resolved
player-list candidate is truthy but not an array (players.map is not a
function), for example on the valid JSON document with players bound to
the number 5, and already on the valid JSON document null, where the very
first property access throws. -/
theorem normalizeData_not_total :
    normalizeData (some (.obj [("players", .num 5)])) "2025-01-01T00:00:00.000Z" = .error () ∧
    normalizeData (some .null) "2025-01-01T00:00:00.000Z" = .error () :=
  ⟨rfl, rfl⟩

/-- C2: re-normalization is idempotent.  For every Ledger produced by a
successful normalizeData call whose timestamp string is nonempty (a
toISOString result always is), normalizing the serialization of that
Ledger returns it unchanged, field for field, whatever the second
timestamp is. -/
theorem normalizeData_idempotent (o : Option Json) (now now2 : String) (L : Ledger)
    (hnow : now ≠ "") (h : normalizeData o now = .ok L) :
    normalizeData (some (ledgerToJson L)) now2 = .ok L := by
  have hInv : LedgerInv L := normalizeData_inv hnow h
  have hstep : normalizeData (some (ledgerToJson L)) now2
      = normalizeParsed (ledgerToJson L) now2 := rfl
  rw [hstep, normalizeParsed_roundtrip L hInv now2]

/-- C2 witness: a concrete normalized ledger round-trips unchanged. -/
theorem normalizeData_idempotent_witness :
    normalizeData (some (ledgerToJson rexLedger)) "U" = .ok rexLedger :=
  normalizeData_idempotent
    (some (.obj [("players", .arr [.obj [("username", .str "Rex"), ("gold", .num 150)]]),
                 ("lastUpdated", .str "T")]))
    "Z" "U" rexLedger (by decide) rfl

/-- C3 counterexample: on an input carrying both players and playerList,
normalizeData of src/server.js uses the playerList value (the record named
b), not the players value (the record named a) the claim requires. -/
theorem playerList_resolved_first_cex :
    normalizeData (some bothFieldsObj) "T" =
      .ok { lastUpdated := .str "T",
            players := [{ username := "b", usernameLower := "b",
                          currentTitle := .str "Regular", titles := [.str "Regular"],
                          gold := 0, health := 100, drunkenness := 0, honour := 0,
                          questsCompleted := 0, inventory := [] }] } ∧
    resolvePlayersSrc bothFieldsObj ≠ .arr [.obj [("username", .str "a")]] :=
  ⟨rfl, by simp [resolvePlayersSrc, bothFieldsObj, getFieldD, jsOr, truthy, dataCandidate]⟩

/-- Helper: a falsy or undefined first operand of jsOr falls through. -/
theorem jsOr_falsy {a : Option Json} (b : Option Json) (h : falsyOpt a = true) :
    jsOr a b = b := by
  cases a with
  | none => rfl
  | some w =>
    have hw : truthy w = false := by simpa [falsyOpt] using h
    simp [jsOr, hw]

/-- Helper: a falsy or undefined first operand of jsOrV falls through. -/
theorem jsOrV_falsy {a : Option Json} (b : Json) (h : falsyOpt a = true) :
    jsOrV a b = b := by
  cases a with
  | none => rfl
  | some w =>
    have hw : truthy w = false := by simpa [falsyOpt] using h
    simp [jsOrV, hw]

/-- Helper: a truthy data field turns the server.js third candidate into
the inner playerList-or-players chain. -/
theorem dataCandidate_truthy {parsed d : Json} (hd : getFieldD parsed "data" = some d)
    (hdt : truthy d = true) :
    dataCandidate parsed = jsOr (getFieldD d "playerList") (getFieldD d "players") := by
  simp [dataCandidate, hd, hdt]

/-- C3 amended: all variants resolve the player list by a first-truthy
chain with an array-or-empty fallback (a defined falsy candidate also
falls through), but the order differs.  src/server.js checks playerList,
then players, then (when a data field is truthy) data.playerList then
data.players, then the parsed value itself if it is a sequence, else an
empty sequence.  part_002 checks playerList, then players, then the same
array-or-empty fallback, with no data step.  part_000 first prefers a
truthy data field as the working object (else the parsed value itself)
and then checks players, then playerList, then the array-or-empty
fallback.  In particular, on an input with both fields truthy,
src/server.js and part_002 use the playerList value while part_000 uses
the players value. -/
theorem resolution_order_amended (parsed v : Json) :
    ((getFieldD parsed "playerList" = some v → truthy v = true →
        resolvePlayersSrc parsed = v) ∧
     (falsyOpt (getFieldD parsed "playerList") = true →
        getFieldD parsed "players" = some v → truthy v = true →
        resolvePlayersSrc parsed = v) ∧
     (∀ d, falsyOpt (getFieldD parsed "playerList") = true →
        falsyOpt (getFieldD parsed "players") = true →
        getFieldD parsed "data" = some d → truthy d = true →
        getFieldD d "playerList" = some v → truthy v = true →
        resolvePlayersSrc parsed = v) ∧
     (∀ d, falsyOpt (getFieldD parsed "playerList") = true →
        falsyOpt (getFieldD parsed "players") = true →
        getFieldD parsed "data" = some d → truthy d = true →
        falsyOpt (getFieldD d "playerList") = true →
        getFieldD d "players" = some v → truthy v = true →
        resolvePlayersSrc parsed = v) ∧
     (falsyOpt (getFieldD parsed "playerList") = true →
        falsyOpt (getFieldD parsed "players") = true →
        falsyOpt (dataCandidate parsed) = true →
        (∀ xs, parsed = .arr xs → resolvePlayersSrc parsed = .arr xs) ∧
        ((∀ xs, parsed ≠ .arr xs) → resolvePlayersSrc parsed = .arr []))) ∧
    ((getFieldD parsed "playerList" = some v → truthy v = true →
        resolvePlayersV2 parsed = v) ∧
     (falsyOpt (getFieldD parsed "playerList") = true →
        getFieldD parsed "players" = some v → truthy v = true →
        resolvePlayersV2 parsed = v) ∧
     (falsyOpt (getFieldD parsed "playerList") = true →
        falsyOpt (getFieldD parsed "players") = true →
        (∀ xs, parsed = .arr xs → resolvePlayersV2 parsed = .arr xs) ∧
        ((∀ xs, parsed ≠ .arr xs) → resolvePlayersV2 parsed = .arr []))) ∧
    ((getFieldD parsed "data" = some v → truthy v = true → workingV0 parsed = v) ∧
     (falsyOpt (getFieldD parsed "data") = true → workingV0 parsed = parsed) ∧
     (getFieldD (workingV0 parsed) "players" = some v → truthy v = true →
        resolvePlayersV0 (workingV0 parsed) = v) ∧
     (falsyOpt (getFieldD (workingV0 parsed) "players") = true →
        getFieldD (workingV0 parsed) "playerList" = some v → truthy v = true →
        resolvePlayersV0 (workingV0 parsed) = v) ∧
     (falsyOpt (getFieldD (workingV0 parsed) "players") = true →
        falsyOpt (getFieldD (workingV0 parsed) "playerList") = true →
        (∀ xs, workingV0 parsed = .arr xs → resolvePlayersV0 (workingV0 parsed) = .arr xs) ∧
        ((∀ xs, workingV0 parsed ≠ .arr xs) → resolvePlayersV0 (workingV0 parsed) = .arr []))) := by
  refine ⟨⟨?_, ?_, ?_, ?_, ?_⟩, ⟨?_, ?_, ?_⟩, ⟨?_, ?_, ?_, ?_, ?_⟩⟩
  · intro h1 h2
    simp [resolvePlayersSrc, jsOr, h1, h2]
  · intro h0 h1 h2
    have e0 := jsOr_falsy (jsOr (getFieldD parsed "players") (dataCandidate parsed)) h0
    simp only [resolvePlayersSrc]
    rw [e0, h1]
    simp [jsOr, h2]
  · intro d h0 h1 hd hdt hdpl hv
    have e0 := jsOr_falsy (jsOr (getFieldD parsed "players") (dataCandidate parsed)) h0
    have e1 := jsOr_falsy (dataCandidate parsed) h1
    simp only [resolvePlayersSrc]
    rw [e0, e1, dataCandidate_truthy hd hdt, hdpl]
    simp [jsOr, hv]
  · intro d h0 h1 hd hdt hdplf hdp hv
    have e0 := jsOr_falsy (jsOr (getFieldD parsed "players") (dataCandidate parsed)) h0
    have e1 := jsOr_falsy (dataCandidate parsed) h1
    have e2 := jsOr_falsy (getFieldD d "players") hdplf
    simp only [resolvePlayersSrc]
    rw [e0, e1, dataCandidate_truthy hd hdt, e2, hdp]
    simp [hv]
  · intro h0 h1 h2
    have e0 := jsOr_falsy (jsOr (getFieldD parsed "players") (dataCandidate parsed)) h0
    have e1 := jsOr_falsy (dataCandidate parsed) h1
    constructor
    · intro xs hx
      subst hx
      rfl
    · intro hnot
      rcases hdc : dataCandidate parsed with _ | w
      · simp only [resolvePlayersSrc]
        rw [e0, e1, hdc]
      · have hw : truthy w = false := by rw [hdc] at h2; simpa [falsyOpt] using h2
        simp only [resolvePlayersSrc]
        rw [e0, e1, hdc]
        simp only [hw, Bool.false_eq_true, if_false]
  · intro h1 h2
    simp [resolvePlayersV2, jsOr, h1, h2]
  · intro h0 h1 h2
    have e0 := jsOr_falsy (getFieldD parsed "players") h0
    simp only [resolvePlayersV2]
    rw [e0, h1]
    simp [h2]
  · intro h0 h1
    have e0 := jsOr_falsy (getFieldD parsed "players") h0
    constructor
    · intro xs hx
      subst hx
      rfl
    · intro hnot
      rcases hps : getFieldD parsed "players" with _ | w
      · simp only [resolvePlayersV2]
        rw [e0, hps]
      · have hw : truthy w = false := by rw [hps] at h1; simpa [falsyOpt] using h1
        simp only [resolvePlayersV2]
        rw [e0, hps]
        simp only [hw, Bool.false_eq_true, if_false]
  · intro h1 h2
    simp [workingV0, jsOrV, h1, h2]
  · intro h0
    exact jsOrV_falsy parsed h0
  · intro h1 h2
    simp [resolvePlayersV0, jsOr, h1, h2]
  · intro h0 h1 h2
    have e0 := jsOr_falsy (getFieldD (workingV0 parsed) "playerList") h0
    simp only [resolvePlayersV0]
    rw [e0, h1]
    simp [h2]
  · intro h0 h1
    have e0 := jsOr_falsy (getFieldD (workingV0 parsed) "playerList") h0
    constructor
    · intro xs hx
      rw [hx]
      rfl
    · intro hnot
      rcases hpl : getFieldD (workingV0 parsed) "playerList" with _ | w
      · simp only [resolvePlayersV0]
        rw [e0, hpl]
      · have hw : truthy w = false := by rw [hpl] at h1; simpa [falsyOpt] using h1
        simp only [resolvePlayersV0]
        rw [e0, hpl]
        simp only [hw, Bool.false_eq_true, if_false]

/-- C3 amended witness: with both fields present src/server.js and
part_002 resolve the playerList value; an all-falsy chain on an array
input falls back to the array itself; and the part_000 working object is
the truthy data field. -/
theorem resolution_order_amended_witness :
    resolvePlayersSrc bothFieldsObj = .arr [.obj [("username", .str "b")]] ∧
    resolvePlayersV2 bothFieldsObj = .arr [.obj [("username", .str "b")]] ∧
    resolvePlayersSrc (.arr [.obj []]) = .arr [.obj []] ∧
    workingV0 (.obj [("data", .obj [("players", .arr [])])]) = .obj [("players", .arr [])] :=
  ⟨(resolution_order_amended bothFieldsObj _).1.1 rfl rfl,
   (resolution_order_amended bothFieldsObj _).2.1.1 rfl rfl,
   ((resolution_order_amended (.arr [.obj []]) (.arr [])).1.2.2.2.2 rfl rfl rfl).1
     [.obj []] rfl,
   (resolution_order_amended (.obj [("data", .obj [("players", .arr [])])]) _).2.2.1 rfl rfl⟩

/-- Helper: normalizePlayerV0 on an object unfolds to the username match. -/
theorem normalizePlayerV0_obj (fs : List (String × Json)) :
    normalizePlayerV0 (.obj fs) =
      match resolveUname (.obj fs) with
      | .str s => .ok (normalizePlayerV0Body (.obj fs) s)
      | _ => .error () := rfl

/-- C4 counterexample: the part_000 normalizer resolves gold with nullish
coalescing, so the string value propagates verbatim instead of the claimed
default 0. -/
theorem v0_gold_string_cex :
    normalizePlayerV0 (.obj [("gold", .str "not a number")]) =
      .ok { username := .str "", usernameLower := "", currentTitle := .str "Regular",
            titles := [.str "Regular"], gold := .str "not a number", health := .num 100,
            drunkenness := .num 0, honour := .num 0, questsCompleted := .num 0,
            inventory := [] } ∧
    (Json.str "not a number") ≠ (Json.num 0) :=
  ⟨rfl, by simp⟩

/-- Helper: normalizePlayerV2 on an object unfolds to the username match. -/
theorem normalizePlayerV2_obj (fs : List (String × Json)) :
    normalizePlayerV2 (.obj fs) =
      match jsOrV (getFieldD (.obj fs) "username") (Json.str "") with
      | .str s => .ok (normalizePlayerV2Body (.obj fs) s)
      | _ => .error () := rfl

/-- C4 amended: only src/server.js resolves the numeric fields with
Number.isFinite, keeping a finite number and defaulting every other value
(missing, null, string and so on), with 100 for health and 0 for the
rest, so gold bound to the string not a number becomes 0 there.  The
part_000 variant uses nullish coalescing, defaulting only missing or null
values, so a string gold propagates verbatim; the part_002 variant uses
logical or, so truthy values of any type — including that string —
propagate verbatim and falsy ones default, turning even a finite health
of 0 into 100. -/
theorem numeric_fields_default_amended (fs : List (String × Json)) :
    ∃ r, normalizePlayerSrc (.obj fs) = .ok r ∧
      keepsFinite (getFieldD (.obj fs) "gold") 0 r.gold ∧
      keepsFinite (getFieldD (.obj fs) "health") 100 r.health ∧
      keepsFinite (getFieldD (.obj fs) "drunkenness") 0 r.drunkenness ∧
      keepsFinite (getFieldD (.obj fs) "honour") 0 r.honour ∧
      keepsFinite (getFieldD (.obj fs) "questsCompleted") 0 r.questsCompleted ∧
      (∀ s r2, getFieldD (.obj fs) "gold" = some (.str s) →
         normalizePlayerV0 (.obj fs) = .ok r2 → r2.gold = .str s) ∧
      (∀ s r3, s ≠ "" → getFieldD (.obj fs) "gold" = some (.str s) →
         normalizePlayerV2 (.obj fs) = .ok r3 → r3.gold = .str s) ∧
      (∀ r3, getFieldD (.obj fs) "health" = some (.num 0) →
         normalizePlayerV2 (.obj fs) = .ok r3 → r3.health = .num 100) := by
  refine ⟨normalizePlayerBody (.obj fs), rfl,
    numOr_spec _ _ _, numOr_spec _ _ _, numOr_spec _ _ _,
    numOr_spec _ _ _, numOr_spec _ _ _, ?_, ?_, ?_⟩
  · intro s r2 hs h2
    rw [normalizePlayerV0_obj] at h2
    cases hru : resolveUname (.obj fs) with
    | str s2 =>
      rw [hru] at h2
      obtain rfl := Except.ok.inj h2
      show nullishOr (getFieldD (.obj fs) "gold") (.num 0) = .str s
      rw [hs]
      rfl
    | null => rw [hru] at h2; exact Except.noConfusion h2
    | bool b => rw [hru] at h2; exact Except.noConfusion h2
    | num q => rw [hru] at h2; exact Except.noConfusion h2
    | arr xs => rw [hru] at h2; exact Except.noConfusion h2
    | obj fs2 => rw [hru] at h2; exact Except.noConfusion h2
  · intro s r3 hs hg h3
    rw [normalizePlayerV2_obj] at h3
    cases hru : jsOrV (getFieldD (.obj fs) "username") (Json.str "") with
    | str s2 =>
      rw [hru] at h3
      obtain rfl := Except.ok.inj h3
      show jsOrV (getFieldD (.obj fs) "gold") (.num 0) = .str s
      rw [hg]
      simp [jsOrV, truthy, hs]
    | null => rw [hru] at h3; exact Except.noConfusion h3
    | bool b => rw [hru] at h3; exact Except.noConfusion h3
    | num q => rw [hru] at h3; exact Except.noConfusion h3
    | arr xs => rw [hru] at h3; exact Except.noConfusion h3
    | obj fs2 => rw [hru] at h3; exact Except.noConfusion h3
  · intro r3 hh h3
    rw [normalizePlayerV2_obj] at h3
    cases hru : jsOrV (getFieldD (.obj fs) "username") (Json.str "") with
    | str s2 =>
      rw [hru] at h3
      obtain rfl := Except.ok.inj h3
      show jsOrV (getFieldD (.obj fs) "health") (.num 100) = .num 100
      rw [hh]
      rfl
    | null => rw [hru] at h3; exact Except.noConfusion h3
    | bool b => rw [hru] at h3; exact Except.noConfusion h3
    | num q => rw [hru] at h3; exact Except.noConfusion h3
    | arr xs => rw [hru] at h3; exact Except.noConfusion h3
    | obj fs2 => rw [hru] at h3; exact Except.noConfusion h3

/-- C4 amended witness: at a concrete record, a string gold defaults to 0
in the src/server.js normalizer while a finite health of 250 is kept, and
the part_002 normalizer keeps the same string gold verbatim. -/
theorem numeric_fields_default_amended_witness :
    (∃ r, normalizePlayerSrc (.obj [("gold", .str "not a number"), ("health", .num 250)]) = .ok r ∧
       r.gold = 0 ∧ r.health = 250) ∧
    (∃ r3, normalizePlayerV2 (.obj [("gold", .str "not a number"), ("health", .num 250)]) = .ok r3 ∧
       r3.gold = .str "not a number") := by
  obtain ⟨r, hok, hg, hh, _, _, _, _, hv2g, _⟩ :=
    numeric_fields_default_amended [("gold", .str "not a number"), ("health", .num 250)]
  constructor
  · refine ⟨r, hok, hg.2 ?_, hh.1 250 rfl⟩
    intro q hq
    rw [show getFieldD (.obj [("gold", Json.str "not a number"), ("health", Json.num 250)]) "gold"
          = some (.str "not a number") from rfl] at hq
    simp at hq
  · refine ⟨normalizePlayerV2Body (.obj [("gold", .str "not a number"), ("health", .num 250)]) "", rfl, ?_⟩
    exact hv2g "not a number"
      (normalizePlayerV2Body (.obj [("gold", .str "not a number"), ("health", .num 250)]) "")
      (by simp) rfl rfl

/-- Helper: the src/server.js /status lookup lowercases the raw username,
scans ledger.players in order and returns the first record whose
usernameLower equals the lowercased input; when nothing matches the
result is the value none (rendered as a no-data page), never an
exception. -/
theorem findPlayer_first_match (ledger : Ledger) (rawUsername : String) :
    (∀ p, findPlayer ledger rawUsername = some p →
       p.usernameLower = jsToLower rawUsername ∧
       ∃ pre post, ledger.players = pre ++ p :: post ∧
         ∀ q ∈ pre, q.usernameLower ≠ jsToLower rawUsername) ∧
    (findPlayer ledger rawUsername = none ↔
       ∀ q ∈ ledger.players, q.usernameLower ≠ jsToLower rawUsername) := by
  have h := find?_first_spec
    (fun p => p.usernameLower == jsToLower rawUsername) ledger.players
  refine ⟨?_, ?_⟩
  · intro p hp
    obtain ⟨hq, pre, post, heq, hpre⟩ := h.1 p hp
    exact ⟨by simpa using hq, pre, post, heq, fun q hq2 => by simpa using hpre q hq2⟩
  · unfold findPlayer
    rw [h.2]
    constructor
    · intro hh q hq2; simpa using hh q hq2
    · intro hh q hq2; simpa using hh q hq2

/-- Helper: a successful checkEntry answers the comparison boolean. -/
theorem checkEntry_ok {x : Json} {user : String} {b : Bool}
    (h : checkEntry x user = .ok b) : usernameMatches x user = b := by
  cases x with
  | null => exact Except.noConfusion h
  | bool b2 => exact Except.ok.inj h
  | num q => exact Except.ok.inj h
  | str s => exact Except.ok.inj h
  | arr xs => exact Except.ok.inj h
  | obj fs => exact Except.ok.inj h

/-- Helper: checkEntry on a non-null entry is the comparison boolean. -/
theorem checkEntry_matches (p : Json) (user : String) (hp : p ≠ .null) :
    checkEntry p user = .ok (usernameMatches p user) := by
  cases p with
  | null => exact absurd rfl hp
  | bool b => rfl
  | num q => rfl
  | str s => rfl
  | arr xs => rfl
  | obj fs => rfl

/-- Helper: the part_001 comparison holds exactly when the raw username
field is the compared string. -/
theorem usernameMatches_iff (p : Json) (user : String) :
    usernameMatches p user = true ↔ getFieldD p "username" = some (.str user) := by
  unfold usernameMatches
  rcases hu : getFieldD p "username" with _ | v
  · simp
  · cases v with
    | str s => simp [beq_iff_eq]
    | null => simp
    | bool b => simp
    | num q => simp
    | arr xs => simp
    | obj fs => simp

/-- Helper: a record returned by the part_001 scan carries exactly the
compared string in its raw username field. -/
theorem findV1_mem_matches : ∀ {xs : List Json} {user : String} {p : Json},
    findV1 xs user = .ok (some p) → getFieldD p "username" = some (.str user) := by
  intro xs
  induction xs with
  | nil => intro user p h; exact Option.noConfusion (Except.ok.inj h)
  | cons x rest ih =>
    intro user p h
    have hstep : findV1 (x :: rest) user =
        match checkEntry x user with
        | .error e => .error e
        | .ok true => .ok (some x)
        | .ok false => findV1 rest user := rfl
    rw [hstep] at h
    cases hc : checkEntry x user with
    | error e => rw [hc] at h; exact Except.noConfusion h
    | ok b =>
      rw [hc] at h
      cases b with
      | false => exact ih h
      | true =>
        obtain rfl := Option.some.inj (Except.ok.inj h)
        exact (usernameMatches_iff x user).mp (checkEntry_ok hc)

/-- Helper: with no null entry and no exact raw-username match, the
part_001 scan answers NotFound as a value. -/
theorem findV1_none_of_no_match : ∀ {xs : List Json} {user : String},
    Json.null ∉ xs → (∀ q ∈ xs, getFieldD q "username" ≠ some (.str user)) →
    findV1 xs user = .ok none := by
  intro xs
  induction xs with
  | nil => intro user h1 h2; rfl
  | cons x rest ih =>
    intro user hnull hm
    have hx : x ≠ Json.null := by
      intro he
      exact hnull (by rw [he]; exact List.mem_cons_self _ _)
    have hstep : findV1 (x :: rest) user =
        match checkEntry x user with
        | .error e => .error e
        | .ok true => .ok (some x)
        | .ok false => findV1 rest user := rfl
    rw [hstep, checkEntry_matches x user hx]
    have hfalse : usernameMatches x user = false := by
      cases hb : usernameMatches x user
      · rfl
      · exact absurd ((usernameMatches_iff x user).mp hb)
          (hm x (List.mem_cons_self x rest))
    rw [hfalse]
    exact ih (fun he => hnull (List.mem_cons_of_mem x he))
      (fun q hq => hm q (List.mem_cons_of_mem x hq))

/-- C5 counterexample: the part_001 status route compares the raw
username field case-sensitively against the lowercased query, so looking
up REX against a ledger whose record has username Rex and usernameKey rex
returns NotFound there, while the src/server.js lookup on the same data
succeeds. -/
theorem lookup_case_sensitive_cex :
    statusLookupV1
      (.obj [("players",
              .arr [.obj [("username", .str "Rex"), ("usernameLower", .str "rex")]])])
      "REX" = .ok none ∧
    findPlayer rexLedger "REX" = some rexPlayer :=
  ⟨rfl, rfl⟩

/-- C5 amended: the src/server.js /status lookup (and the part_000
getPlayerByLogin) lowercases the raw username, scans the players in order
and returns the first record whose usernameLower equals the lowercased
input, with NotFound as a plain value.  The part_001 status route instead
compares the raw username field of each entry for exact, case-sensitive
equality with the lowercased query (usernameLower is ignored): a record
is returned only when its raw username field equals that string exactly,
and when no entry matches exactly (and none is null) the result is
NotFound as a value, not an exception. -/
theorem player_lookup_amended (ledger : Ledger) (rawUsername : String)
    (xs : List Json) (user : String) :
    ((∀ p, findPlayer ledger rawUsername = some p →
        p.usernameLower = jsToLower rawUsername ∧
        ∃ pre post, ledger.players = pre ++ p :: post ∧
          ∀ q ∈ pre, q.usernameLower ≠ jsToLower rawUsername) ∧
     (findPlayer ledger rawUsername = none ↔
        ∀ q ∈ ledger.players, q.usernameLower ≠ jsToLower rawUsername)) ∧
    (∀ fs2, getFieldD (.obj fs2) "players" = some (.arr xs) →
       statusLookupV1 (.obj fs2) rawUsername = findV1 xs (jsToLower rawUsername)) ∧
    (∀ p, findV1 xs user = .ok (some p) →
       getFieldD p "username" = some (.str user)) ∧
    (Json.null ∉ xs →
       (∀ q ∈ xs, getFieldD q "username" ≠ some (.str user)) →
       findV1 xs user = .ok none) := by
  refine ⟨findPlayer_first_match ledger rawUsername, ?_, ?_, ?_⟩
  · intro fs2 hp
    simp [statusLookupV1, hp]
  · intro p h
    exact findV1_mem_matches h
  · intro hn hm
    exact findV1_none_of_no_match hn hm

/-- C5 amended witness: REX resolves to the rex record in the server.js
lookup, and in part_001 the record with raw username Rex does not match
the lowercased query, so the scan answers NotFound. -/
theorem player_lookup_amended_witness :
    (rexPlayer.usernameLower = jsToLower "REX" ∧
     ∃ pre post, rexLedger.players = pre ++ rexPlayer :: post ∧
       ∀ q ∈ pre, q.usernameLower ≠ jsToLower "REX") ∧
    findV1 [.obj [("username", .str "Rex"), ("usernameLower", .str "rex")]]
      (jsToLower "REX") = .ok none := by
  constructor
  · exact (player_lookup_amended rexLedger "REX" [] "").1.1 rexPlayer rfl
  · refine (player_lookup_amended rexLedger "REX"
      [.obj [("username", .str "Rex"), ("usernameLower", .str "rex")]]
      (jsToLower "REX")).2.2.2 (by simp) ?_
    intro q hq
    rw [List.mem_singleton] at hq
    subst hq
    rw [show getFieldD
          (.obj [("username", Json.str "Rex"), ("usernameLower", Json.str "rex")])
          "username" = some (.str "Rex") from rfl,
        show jsToLower "REX" = "rex" from rfl]
    simp

/-- C6: while the cache is populated and now minus the last fetch time is
inside the 15-second window, loadLedger answers from the cache with no
network fetch and an unchanged state, so a second call inside the window
returns the identical Ledger value again without fetching. -/
theorem loadLedger_cache_fresh (s : CacheState) (L : Ledger) (now1 now2 : Int)
    (o1 o2 : FetchOutcome) (iso1 iso2 : String) (hc : s.cachedLedger = some L)
    (h1 : now1 - s.lastFetchTime < cacheDuration)
    (h2 : now2 - s.lastFetchTime < cacheDuration) :
    loadLedger s now1 o1 iso1 = ⟨L, s, false⟩ ∧
    loadLedger (loadLedger s now1 o1 iso1).state now2 o2 iso2 = ⟨L, s, false⟩ := by
  obtain ⟨cl, ft⟩ := s
  obtain rfl : cl = some L := hc
  have e1 : loadLedger ⟨some L, ft⟩ now1 o1 iso1 = ⟨L, ⟨some L, ft⟩, false⟩ := by
    dsimp only [loadLedger]
    rw [if_pos h1]
  exact ⟨e1, by rw [e1]; dsimp only [loadLedger]; rw [if_pos h2]⟩

/-- C6 witness: two calls one and two seconds after a fetch at time 0 both
answer the cached ledger without fetching. -/
theorem loadLedger_cache_fresh_witness :
    loadLedger ⟨some rexLedger, 0⟩ 1000 .netError "T" = ⟨rexLedger, ⟨some rexLedger, 0⟩, false⟩ ∧
    loadLedger (loadLedger ⟨some rexLedger, 0⟩ 1000 .netError "T").state 2000 .netError "T" =
      ⟨rexLedger, ⟨some rexLedger, 0⟩, false⟩ :=
  loadLedger_cache_fresh ⟨some rexLedger, 0⟩ rexLedger 1000 2000 .netError .netError "T" "T"
    rfl (by decide) (by decide)

/-- Helper: a failing fetch outcome lands in the catch branch. -/
theorem fetchAndCache_fail (s : CacheState) (now : Int) (o : FetchOutcome)
    (iso : String) (h : fetchFails o = true) :
    fetchAndCache s now o iso = ⟨s.cachedLedger.getD emptyLedger, s, true⟩ := by
  cases o with
  | netError => rfl
  | httpError st => rfl
  | success b => simp [fetchFails] at h

/-- Helper: in the src/server.js cache variant, whatever the cache state,
a failing network fetch or a non-success status leaves loadLedger
returning the previously cached ledger when one exists and the empty
Never ledger otherwise, with the cache state untouched; by its type
loadLedger always returns a Ledger, so the failure never propagates. -/
theorem loadLedger_failure_fallback (s : CacheState) (now : Int) (o : FetchOutcome)
    (iso : String) (h : fetchFails o = true) :
    (loadLedger s now o iso).ledger = s.cachedLedger.getD emptyLedger ∧
    (loadLedger s now o iso).state = s := by
  obtain ⟨cl, ft⟩ := s
  cases cl with
  | none =>
    rw [show loadLedger ⟨none, ft⟩ now o iso = fetchAndCache ⟨none, ft⟩ now o iso from rfl,
        fetchAndCache_fail _ _ _ _ h]
    exact ⟨rfl, rfl⟩
  | some L =>
    by_cases hf : now - ft < cacheDuration
    · dsimp only [loadLedger]
      rw [if_pos hf]
      exact ⟨rfl, rfl⟩
    · dsimp only [loadLedger]
      rw [if_neg hf, fetchAndCache_fail _ _ _ _ h]
      exact ⟨rfl, rfl⟩

/-- C7 counterexample: the part_002 loadLedger has no cache and no res.ok
check, so a rejected fetch returns a bare empty player array rather than
the claimed Never ledger, and the body of a status-500 response is
normalized and returned as data rather than triggering any fallback. -/
theorem loadLedgerV2_no_fallback_cex :
    loadLedgerV2 .reject = [] ∧
    loadLedgerV2 (.resolved 500
        (some (.obj [("players", .arr [.obj [("username", .str "Rex")]])]))) =
      [{ username := .str "Rex", usernameLower := "rex", currentTitle := .str "Regular",
         gold := .num 0, health := .num 100, drunkenness := .num 0, honour := .num 0,
         questsCompleted := .num 0, inventory := .arr [] }] ∧
    loadLedgerV2 (.resolved 500
        (some (.obj [("players", .arr [.obj [("username", .str "Rex")]])]))) ≠ [] :=
  ⟨rfl, rfl, fun h => List.noConfusion h⟩

/-- C7 amended: in the cached variant (src/server.js), on a failing fetch
or a non-success status loadLedger returns the previously cached Ledger
unchanged when a cache exists and the empty Never ledger otherwise, with
the cache state untouched and the failure never propagated.  The part_002
variant has no cache: a rejected fetch returns a bare empty player array
(there is no Never ledger), and a resolved response is normalized as data
whatever its status, because res.ok is never checked; only a throw out of
normalization falls back to the empty array. -/
theorem fetch_failure_fallback_amended (s : CacheState) (now : Int)
    (o : FetchOutcome) (iso : String) (st : Nat) (body : Option Json)
    (h : fetchFails o = true) :
    ((loadLedger s now o iso).ledger = s.cachedLedger.getD emptyLedger ∧
     (loadLedger s now o iso).state = s) ∧
    loadLedgerV2 .reject = [] ∧
    loadLedgerV2 (.resolved st body) =
      (match normalizeDataV2 body with
       | .ok ps => ps
       | .error _ => []) :=
  ⟨loadLedger_failure_fallback s now o iso h, rfl, rfl⟩

/-- C7 amended witness: a network failure with an empty cache yields the
Never ledger with the state untouched in src/server.js, while part_002
answers the bare empty array and normalizes the body of a status-500
response. -/
theorem fetch_failure_fallback_amended_witness :
    ((loadLedger ⟨none, 0⟩ 20000 .netError "T").ledger = Option.none.getD emptyLedger ∧
     (loadLedger ⟨none, 0⟩ 20000 .netError "T").state = ⟨none, 0⟩) ∧
    loadLedgerV2 .reject = [] ∧
    loadLedgerV2 (.resolved 500 none) =
      (match normalizeDataV2 none with
       | .ok ps => ps
       | .error _ => []) :=
  fetch_failure_fallback_amended ⟨none, 0⟩ 20000 .netError "T" 500 none rfl

/-- C8: any POST whose Authorization header differs from the exact string
Bearer followed by the shared secret is answered 401 by both upload
endpoints (part_000 and part_001) with the persisted file left
unchanged. -/
theorem upload_unauthorized_unchanged (uploadKey : String) (auth : Option String)
    (body file : Json) (now : String)
    (h : auth ≠ some ("Bearer " ++ uploadKey)) :
    handleUploadV0 uploadKey auth body file now = (401, file) ∧
    handleUploadV1 uploadKey auth body file now = (401, file) := by
  constructor
  · unfold handleUploadV0; rw [if_neg h]
  · unfold handleUploadV1; rw [if_neg h]

/-- C8 witness: a wrong bearer token is answered 401 and the file string is
returned unchanged by both endpoints. -/
theorem upload_unauthorized_unchanged_witness :
    handleUploadV0 "k" (some "Bearer wrong") (.obj []) (.str "file") "T" = (401, .str "file") ∧
    handleUploadV1 "k" (some "Bearer wrong") (.obj []) (.str "file") "T" = (401, .str "file") :=
  upload_unauthorized_unchanged "k" (some "Bearer wrong") (.obj []) (.str "file") "T" (by decide)

/-- C9: no clamping or rounding is applied to the numeric fields: any
finite raw number, including negative or non-integral ones and health
above 100, appears verbatim in the normalized record, in the
src/server.js normalizer and (as a number value) in the part_000
variant. -/
theorem numeric_fields_verbatim (fs : List (String × Json)) :
    ∃ r, normalizePlayerSrc (.obj fs) = .ok r ∧
      (∀ q : ℚ, getFieldD (.obj fs) "gold" = some (.num q) → r.gold = q) ∧
      (∀ q : ℚ, getFieldD (.obj fs) "health" = some (.num q) → r.health = q) ∧
      (∀ q : ℚ, getFieldD (.obj fs) "drunkenness" = some (.num q) → r.drunkenness = q) ∧
      (∀ q : ℚ, getFieldD (.obj fs) "honour" = some (.num q) → r.honour = q) ∧
      (∀ q : ℚ, getFieldD (.obj fs) "questsCompleted" = some (.num q) → r.questsCompleted = q) ∧
      (∀ r2, normalizePlayerV0 (.obj fs) = .ok r2 →
        (∀ q : ℚ, getFieldD (.obj fs) "gold" = some (.num q) → r2.gold = .num q) ∧
        (∀ q : ℚ, getFieldD (.obj fs) "health" = some (.num q) → r2.health = .num q) ∧
        (∀ q : ℚ, getFieldD (.obj fs) "drunkenness" = some (.num q) → r2.drunkenness = .num q) ∧
        (∀ q : ℚ, getFieldD (.obj fs) "honour" = some (.num q) → r2.honour = .num q) ∧
        (∀ q : ℚ, getFieldD (.obj fs) "questsCompleted" = some (.num q) →
           r2.questsCompleted = .num q)) := by
  refine ⟨normalizePlayerBody (.obj fs), rfl,
    fun q hq => (numOr_spec _ _ _).1 q hq, fun q hq => (numOr_spec _ _ _).1 q hq,
    fun q hq => (numOr_spec _ _ _).1 q hq, fun q hq => (numOr_spec _ _ _).1 q hq,
    fun q hq => (numOr_spec _ _ _).1 q hq, ?_⟩
  intro r2 h2
  rw [normalizePlayerV0_obj] at h2
  cases hru : resolveUname (.obj fs) with
  | str s2 =>
    rw [hru] at h2
    obtain rfl := Except.ok.inj h2
    refine ⟨?_, ?_, ?_, ?_, ?_⟩ <;> intro q hq <;>
      simp only [normalizePlayerV0Body] <;> rw [hq] <;> rfl
  | null => rw [hru] at h2; exact Except.noConfusion h2
  | bool b => rw [hru] at h2; exact Except.noConfusion h2
  | num q => rw [hru] at h2; exact Except.noConfusion h2
  | arr xs => rw [hru] at h2; exact Except.noConfusion h2
  | obj fs2 => rw [hru] at h2; exact Except.noConfusion h2

/-- C9 witness: a negative non-integral gold and a health of 250 are kept
verbatim at a concrete record. -/
theorem numeric_fields_verbatim_witness :
    ∃ r, normalizePlayerSrc (.obj [("gold", .num (-3/2)), ("health", .num 250)]) = .ok r ∧
      r.gold = -3/2 ∧ r.health = 250 := by
  obtain ⟨r, hok, hg, hh, _, _, _, _⟩ :=
    numeric_fields_verbatim [("gold", .num (-3/2)), ("health", .num 250)]
  exact ⟨r, hok, hg (-3/2) rfl, hh 250 rfl⟩

/-- Helper: with all three username keys absent or empty the resolution
chain collapses to the empty string. -/
theorem resolveUname_empty (fs : List (String × Json)) (h1 : absentOrEmpty fs "username")
    (h2 : absentOrEmpty fs "name") (h3 : absentOrEmpty fs "user") :
    resolveUname (.obj fs) = .str "" := by
  unfold resolveUname
  rcases h1 with h1 | h1 <;> rcases h2 with h2 | h2 <;> rcases h3 with h3 | h3 <;>
    rw [h1, h2, h3] <;> rfl

/-- C10: an entry with none of username, name and user non-empty
normalizes to a kept record with empty username and usernameKey, in both
normalizers, and when such an entry comes first, looking up the empty
string through the part_000 lookup returns that record rather than
NotFound. -/
theorem empty_username_kept_and_found (fs : List (String × Json)) (rest : List Json)
    (now : String) (h1 : absentOrEmpty fs "username") (h2 : absentOrEmpty fs "name")
    (h3 : absentOrEmpty fs "user") :
    (∃ r, normalizePlayerSrc (.obj fs) = .ok r ∧ r.username = "" ∧ r.usernameLower = "") ∧
    (∃ r2, normalizePlayerV0 (.obj fs) = .ok r2 ∧ r2.username = .str "" ∧
       r2.usernameLower = "") ∧
    (∀ L, normalizeDataV0 (some (.obj [("players", .arr (.obj fs :: rest))])) now = .ok L →
       ∃ r2, L.players.head? = some r2 ∧ r2.usernameLower = "" ∧
         getPlayerByLogin L "" = some r2) := by
  have hru := resolveUname_empty fs h1 h2 h3
  have hr2 : normalizePlayerV0 (.obj fs) = .ok (normalizePlayerV0Body (.obj fs) "") := by
    rw [normalizePlayerV0_obj, hru]
  refine ⟨⟨normalizePlayerBody (.obj fs), rfl, ?_, ?_⟩,
          ⟨normalizePlayerV0Body (.obj fs) "", hr2, rfl, rfl⟩, ?_⟩
  · show jsToString (resolveUname (.obj fs)) = ""
    rw [hru]
    rfl
  · show jsToLower (jsToString (resolveUname (.obj fs))) = ""
    rw [hru]
    rfl
  · intro L hL
    have hstep : normalizeDataV0 (some (.obj [("players", .arr (.obj fs :: rest))])) now =
        match normalizePlayersV0 (.obj fs :: rest) with
        | .ok ps => .ok { lastUpdated := Json.str now, players := ps }
        | .error e => .error e := rfl
    have hstep2 : normalizePlayersV0 (.obj fs :: rest) =
        match normalizePlayerV0 (.obj fs) with
        | .error e => .error e
        | .ok p0 =>
          match normalizePlayersV0 rest with
          | .error e => .error e
          | .ok ps0 => .ok (p0 :: ps0) := rfl
    rw [hstep, hstep2, hr2] at hL
    cases hrest : normalizePlayersV0 rest with
    | error e => rw [hrest] at hL; exact Except.noConfusion hL
    | ok ps =>
      rw [hrest] at hL
      obtain rfl := Except.ok.inj hL
      refine ⟨normalizePlayerV0Body (.obj fs) "", rfl, rfl, ?_⟩
      show (normalizePlayerV0Body (.obj fs) "" :: ps).find?
        (fun p => p.usernameLower == jsToLower "") = some (normalizePlayerV0Body (.obj fs) "")
      exact List.find?_cons_of_pos _ rfl

/-- C10 witness: the empty object entry placed first normalizes to the
empty-username record, and the empty-string lookup finds it. -/
theorem empty_username_kept_and_found_witness :
    (∃ r, normalizePlayerSrc (.obj []) = .ok r ∧ r.username = "" ∧ r.usernameLower = "") ∧
    (∃ r2, ({ lastUpdated := .str "T",
              players := [normalizePlayerV0Body (.obj []) ""] } : LedgerV0).players.head?
         = some r2 ∧ r2.usernameLower = "" ∧
       getPlayerByLogin { lastUpdated := .str "T",
                          players := [normalizePlayerV0Body (.obj []) ""] } "" = some r2) := by
  obtain ⟨a, b, c⟩ := empty_username_kept_and_found [] [] "T"
    (Or.inl rfl) (Or.inl rfl) (Or.inl rfl)
  exact ⟨a, c _ rfl⟩

end Tavern
